import Mathlib

/-!
Verification development for the trustbud reddit scraper
(`src/scraper.py`).  The Python source is shallowly embedded below:
pure text functions become Lean functions over `List Char` / `String`,
the Supabase store becomes a list of `StoredPost` records, and the
external collaborators (Reddit client, Supabase transport, TextBlob)
become explicit parameters.  Machine floats that are merely passed
through by the source are modelled as rationals.
-/

namespace Scraper

/-! ## Embedding of the regex engine fragment used by `extract_vendor_name`

The three patterns in the source are
  `(?i)vendor[:\s]+([A-Za-z0-9\s\-\_\.]+)`
  `(?i)from\s+([A-Za-z0-9\s\-\_\.]+)`
  `(?i)ordered\s+from\s+([A-Za-z0-9\s\-\_\.]+)`
Each is a sequence of case-insensitive literals and one-or-more
character-class repetitions, ending in a single greedy capturing group
over the "name" class.  We embed exactly this fragment: a pattern is a
list of elements (literal / plus-class) followed by the implicit final
capture of one-or-more name-class characters, with Python's leftmost
search and greedy backtracking semantics. -/

/-- Whitespace as matched by Python's `\s` (ASCII range) and stripped by
`str.strip()`. -/
def pySpace (c : Char) : Bool :=
  c == ' ' || c == '\t' || c == '\n' || c == '\r' || c == '\x0b' || c == '\x0c'

/-- The character class `[A-Za-z0-9\s\-\_\.]` of the capturing groups. -/
def nameCls (c : Char) : Bool :=
  c.isAlphanum || pySpace c || c == '-' || c == '_' || c == '.'

/-- The character class `[:\s]` following the literal `vendor`. -/
def vendorSep (c : Char) : Bool :=
  c == ':' || pySpace c

/-- One element of a pattern: a case-insensitive literal, or a greedy
one-or-more repetition of a character class. -/
inductive RElem where
  | lit (l : List Char) : RElem
  | plus (cls : Char → Bool) : RElem

/-- Case-insensitive "starts with" (the `(?i)` flag on a literal). -/
def ciStarts : List Char → List Char → Bool
  | [], _ => true
  | _ :: _, [] => false
  | a :: as, b :: bs => (a.toLower == b.toLower) && ciStarts as bs

/-- The final greedy capturing group `([A-Za-z0-9\s\-\_\.]+)`: it is last
in every pattern, so it simply takes the maximal nonempty run. -/
def capGroup (s : List Char) : Option (List Char) :=
  match s.takeWhile nameCls with
  | [] => none
  | c :: cs => some (c :: cs)

mutual

/-- Match a pattern (list of elements followed by the implicit final
capture) at exactly the start of `s`, returning the captured span. -/
def matchElems : List RElem → List Char → Option (List Char)
  | [], s => capGroup s
  | .lit l :: es, s =>
    if ciStarts l s then matchElems es (s.drop l.length) else none
  | .plus cls :: es, s => plusMatch cls (matchElems es) s

/-- Greedy backtracking for a `+`-repetition: consume as many class
characters as possible, then on failure of the continuation `k` give
them back one at a time (Python regex quantifier semantics). -/
def plusMatch (cls : Char → Bool) (k : List Char → Option (List Char)) :
    List Char → Option (List Char)
  | [] => none
  | c :: rest =>
    if cls c then
      match plusMatch cls k rest with
      | some r => some r
      | none => k rest
    else none

end

/-- Python's `re.search`: try a match at every position, leftmost first. -/
def reSearch (es : List RElem) : List Char → Option (List Char)
  | [] => matchElems es []
  | c :: rest =>
    match matchElems es (c :: rest) with
    | some r => some r
    | none => reSearch es rest

/-- The pattern `(?i)vendor[:\s]+([A-Za-z0-9\s\-\_\.]+)`. -/
def p1 : List RElem := [.lit "vendor".data, .plus vendorSep]

/-- The pattern `(?i)from\s+([A-Za-z0-9\s\-\_\.]+)`. -/
def p2 : List RElem := [.lit "from".data, .plus pySpace]

/-- The pattern `(?i)ordered\s+from\s+([A-Za-z0-9\s\-\_\.]+)`. -/
def p3 : List RElem := [.lit "ordered".data, .plus pySpace, .lit "from".data, .plus pySpace]

/-- The `patterns` list of `extract_vendor_name`, in source order. -/
def patterns : List (List RElem) := [p1, p2, p3]

/-- Python's `str.strip()`: remove leading and trailing whitespace. -/
def pyStrip (s : List Char) : List Char :=
  ((s.dropWhile pySpace).reverse.dropWhile pySpace).reverse

/-- The `for pattern in patterns` loop body of `extract_vendor_name`:
return the first pattern's stripped capture, else try the next pattern. -/
def extractVendorAux : List (List RElem) → List Char → Option (List Char)
  | [], _ => none
  | p :: ps, t =>
    match reSearch p t with
    | some g => some (pyStrip g)
    | none => extractVendorAux ps t

/-- Embedding of `extract_vendor_name` (src/scraper.py lines 43-58). -/
def extract_vendor_name (text : String) : Option String :=
  match extractVendorAux patterns text.data with
  | some g => some (String.mk g)
  | none => none

/-- Variant of `extract_vendor_name` that uses only the first two
patterns; used to state the refinement claim that the third pattern is
unreachable. -/
def extract_vendor_name_two (text : String) : Option String :=
  match extractVendorAux [p1, p2] text.data with
  | some g => some (String.mk g)
  | none => none


/-! ## Text enrichment: sentiment -/

/-- Modelled from the spec: TextBlob, the external sentiment collaborator,
is not part of this repository.  Per the spec it is a "general-purpose
lexicon/statistical sentiment model" whose polarity lies in [-1.0, 1.0]
and which yields 0.0 on empty input; any internal failure surfaces as a
raised exception, modelled as `Except.error`.  Floats are modelled as
rationals since the source only passes the value through. -/
structure SentimentModel where
  polarity : String → Except String ℚ
  polarity_mem : ∀ t q, polarity t = Except.ok q → -1 ≤ q ∧ q ≤ 1
  polarity_empty : polarity "" = Except.ok 0

/-- Embedding of `extract_sentiment` (src/scraper.py lines 34-41): return
the model's polarity, or 0.0 if the model raises. -/
def extract_sentiment (m : SentimentModel) (text : String) : ℚ :=
  match m.polarity text with
  | Except.ok q => q
  | Except.error _ => 0

/-- A concrete sentiment model (always neutral), for witnesses. -/
def neutralModel : SentimentModel where
  polarity := fun _ => Except.ok 0
  polarity_mem := by intro t q h; cases h; constructor <;> norm_num
  polarity_empty := rfl

/-- A concrete sentiment model that raises on every nonempty input, for
witnesses exercising the error path. -/
def errModel : SentimentModel where
  polarity := fun t => if t = "" then Except.ok 0 else Except.error "boom"
  polarity_mem := by
    intro t q h
    by_cases ht : t = "" <;> simp [ht] at h
    cases h; constructor <;> norm_num
  polarity_empty := rfl

/-! ## Post normalizer -/

/-- A raw reddit submission as supplied by the forum client (the fields
read by `process_post`).  The author is `none` for deleted/absent
authors (praw returns Python `None`); the creation time is the source's
epoch-seconds value. -/
structure RawPost where
  id : String
  subreddit : String
  title : String
  selftext : String
  author : Option String
  permalink : String
  created_utc : Int
  score : Int
  upvote_ratio : ℚ
  num_comments : Int
deriving DecidableEq

/-- A fetched item: either a well-formed raw post, or a post whose
attribute accesses raise inside `process_post` (praw objects are lazy, so
the id is still known to the surrounding loop). -/
inductive FetchItem where
  | good (p : RawPost) : FetchItem
  | bad (id : String) : FetchItem
deriving DecidableEq

/-- The reddit id of a fetched item (`post.id` in the source). -/
def itemId : FetchItem → String
  | .good p => p.id
  | .bad i => i

/-- Predicate for the malformed case. -/
def isBad : FetchItem → Bool
  | .good _ => false
  | .bad _ => true

/-- Whether `w` occurs at the very start of `h` (exact characters). -/
def headMatch : List Char → List Char → Bool
  | [], _ => true
  | _ :: _, [] => false
  | a :: as, b :: bs => (a == b) && headMatch as bs

/-- Python's `in` on strings: `w` occurs as a contiguous substring of
`h`. -/
def containsSub (w : List Char) : List Char → Bool
  | [] => headMatch w []
  | h@(_ :: rest) => headMatch w h || containsSub w rest

/-- Python's `str()` applied to an optional author: `str(None)` is the
sentinel string `"None"`. -/
def pyStr : Option String → String
  | none => "None"
  | some s => s

/-- The persisted record shape built by `process_post` (the
`reddit_posts` table row).  `created_utc` keeps the UTC epoch seconds;
float fields are rationals. -/
structure StoredPost where
  reddit_id : String
  subreddit : String
  title : String
  content : String
  author : String
  url : String
  created_utc : Int
  score : Int
  upvote_ratio : ℚ
  num_comments : Int
  post_type : String
  sentiment_score : ℚ
  extracted_vendor_name : Option String
  processed : Bool
deriving DecidableEq

/-- Embedding of `process_post` (src/scraper.py lines 60-87): build the
record dict; any exception while reading raw fields (the `.bad` case)
yields `None`. -/
def process_post (m : SentimentModel) : FetchItem → Option StoredPost
  | .bad _ => none
  | .good post => some
    { reddit_id := post.id
      subreddit := post.subreddit
      title := post.title
      content := post.selftext
      author := pyStr post.author
      url := "https://reddit.com" ++ post.permalink
      created_utc := post.created_utc
      score := post.score
      upvote_ratio := post.upvote_ratio
      num_comments := post.num_comments
      post_type :=
        if ["review", "experience"].any
            (fun word => containsSub word.data (post.title.data.map Char.toLower)) then
          "review"
        else "discussion"
      sentiment_score := extract_sentiment m (post.title ++ " " ++ post.selftext)
      extracted_vendor_name := extract_vendor_name (post.title ++ " " ++ post.selftext)
      processed := false }

/-! ## Ingestion engine -/

/-- The Supabase `reddit_posts` table, as the engine sees it. -/
abbrev Store := List StoredPost

/-- External nondeterminism of the two Supabase calls made per post: for
a given reddit id, does the existence-check call raise, and does the
insert call raise.  These stand for transport failures of the external
store client. -/
structure Faults where
  checkFault : String → Bool
  insertFault : String → Bool

/-- A fault model in which every external call succeeds. -/
def noFaults : Faults where
  checkFault := fun _ => false
  insertFault := fun _ => false

/-- The body of the per-post loop of `scrape_subreddit_data`
(src/scraper.py lines 94-101): check existence by `reddit_id`, and if
absent, normalize and insert; any exception (check fault, processing
failure, insert fault) is caught and the store is left unchanged. -/
def stepPost (m : SentimentModel) (flt : Faults) (st : Store) (item : FetchItem) : Store :=
  if flt.checkFault (itemId item) then st
  else if (st.filter (fun r => r.reddit_id == itemId item)).isEmpty then
    match process_post m item with
    | some post_data =>
      if flt.insertFault (itemId item) then st else st ++ [post_data]
    | none => st
  else st

/-- Embedding of the per-forum loop of `scrape_subreddit_data`
(src/scraper.py lines 89-104).  The external fetch
`subreddit.new(limit=limit)` is supplied as the list `posts`;
the Supabase state is `st`. -/
def scrape_subreddit_data (m : SentimentModel) (flt : Faults) (st : Store)
    (posts : List FetchItem) : Store :=
  posts.foldl (stepPost m flt) st

/-! ## Refresh pass -/

/-- The three live counters re-read from reddit for one post:
score, comment count, upvote ratio. -/
structure LiveData where
  score : Int
  num_comments : Int
  upvote_ratio : ℚ
deriving DecidableEq

/-- The Supabase `update(...).eq("reddit_id", id)` call: overwrite the
three counter fields of every row with that reddit id. -/
def applyUpdate (st : Store) (id : String) (v : LiveData) : Store :=
  st.map fun r =>
    if r.reddit_id == id then
      { r with score := v.score, num_comments := v.num_comments,
               upvote_ratio := v.upvote_ratio }
    else r

/-- The body of the per-record loop of `update_existing_posts`: re-fetch
the live post by reddit id and overwrite the three counters; a per-record
fetch failure (`live id = none`, e.g. post deleted upstream) is caught
and skipped. -/
def refreshStep (live : String → Option LiveData) (acc : Store) (id : String) : Store :=
  match live id with
  | some v => applyUpdate acc id v
  | none => acc

/-- Embedding of `update_existing_posts` (src/scraper.py lines 106-126):
take a snapshot of the table, then run the per-record refresh over each
snapshot row. -/
def update_existing_posts (live : String → Option LiveData) (st : Store) : Store :=
  (st.map StoredPost.reddit_id).foldl (refreshStep live) st

/-! ## Startup environment check -/

/-- The `required_vars` list of `check_environment`. -/
def required_vars : List String :=
  ["SUPABASE_URL", "SUPABASE_SERVICE_ROLE_KEY", "REDDIT_CLIENT_ID", "REDDIT_CLIENT_SECRET"]

/-- Python truthiness test `not os.getenv(var)`: the variable is missing
when unset (`None`) or set to the empty string. -/
def pyFalsy : Option String → Bool
  | none => true
  | some s => s == ""

/-- Python's `", ".join`. -/
def joinComma : List String → String
  | [] => ""
  | [s] => s
  | s :: t :: rest => s ++ ", " ++ joinComma (t :: rest)

/-- The message of the `EnvironmentError` raised by `check_environment`. -/
def missingMsg (vars : List String) : String :=
  "Missing required environment variables: " ++ joinComma vars

/-- The missing-variable list computed by `check_environment` for a given
process environment `env` (`os.getenv`). -/
def missingOf (env : String → Option String) : List String :=
  required_vars.filter (fun v => pyFalsy (env v))

/-- Embedding of `check_environment` (src/scraper.py lines 128-142):
raise a single `EnvironmentError` naming every missing variable, or
return normally. -/
def check_environment (env : String → Option String) : Except String Unit :=
  let missing_vars := missingOf env
  if missing_vars.isEmpty then Except.ok ()
  else Except.error (missingMsg missing_vars)

/-! ## Concrete inputs for witnesses -/

/-- A well-formed raw post with the given id and title. -/
def mkRaw (id title : String) : RawPost where
  id := id
  subreddit := "thca"
  title := title
  selftext := "ordered from BudCo, great"
  author := some "alice"
  permalink := "/r/thca/comments/1"
  created_utc := 1700000000
  score := 12
  upvote_ratio := 93 / 100
  num_comments := 3

/-- A raw post whose author is absent/deleted. -/
def rawNoAuthor : RawPost :=
  { mkRaw "zz1" "Great experience" with author := none }

/-- A process environment with no variable set. -/
def env0 : String → Option String := fun _ => none

/-- A process environment with every variable set (to "x"). -/
def envFull : String → Option String := fun _ => some "x"

/-- One of the three per-post failure modes of the ingestion loop:
the existence check raises, normalization fails, or the insert raises. -/
def itemFails (flt : Faults) (item : FetchItem) : Prop :=
  flt.checkFault (itemId item) = true ∨ isBad item = true ∨
    flt.insertFault (itemId item) = true

/-- A well-formed post none of whose external calls fail. -/
def itemOk (flt : Faults) (item : FetchItem) : Prop :=
  flt.checkFault (itemId item) = false ∧ isBad item = false ∧
    flt.insertFault (itemId item) = false

instance (flt : Faults) (item : FetchItem) : Decidable (itemFails flt item) := by
  unfold itemFails; infer_instance

instance (flt : Faults) (item : FetchItem) : Decidable (itemOk flt item) := by
  unfold itemOk; infer_instance

/-- Equality of every StoredPost field except the three counters that
the refresh pass overwrites. -/
def frameEq (a b : StoredPost) : Prop :=
  a.reddit_id = b.reddit_id ∧ a.subreddit = b.subreddit ∧ a.title = b.title ∧
  a.content = b.content ∧ a.author = b.author ∧ a.url = b.url ∧
  a.created_utc = b.created_utc ∧ a.post_type = b.post_type ∧
  a.sentiment_score = b.sentiment_score ∧
  a.extracted_vendor_name = b.extracted_vendor_name ∧ a.processed = b.processed

/-- A record agrees with the live upstream counters for its own id,
whenever those are available. -/
def syncedR (live : String → Option LiveData) (r : StoredPost) : Prop :=
  ∀ v, live r.reddit_id = some v →
    r.score = v.score ∧ r.num_comments = v.num_comments ∧ r.upvote_ratio = v.upvote_ratio

/-! ## Lemmas about the substring test -/

theorem headMatch_iff (w : List Char) : ∀ h : List Char,
    headMatch w h = true ↔ ∃ t, h = w ++ t := by
  induction w with
  | nil => intro h; simp [headMatch]
  | cons a as ih =>
    intro h
    cases h with
    | nil => simp [headMatch]
    | cons b bs =>
      simp only [headMatch, Bool.and_eq_true, beq_iff_eq, ih bs, List.cons_append,
        List.cons.injEq]
      constructor
      · rintro ⟨rfl, t, rfl⟩; exact ⟨t, rfl, rfl⟩
      · rintro ⟨t, rfl, rfl⟩; exact ⟨rfl, t, rfl⟩

theorem containsSub_iff (w : List Char) : ∀ h : List Char,
    containsSub w h = true ↔ ∃ a b, h = a ++ w ++ b := by
  intro h
  induction h with
  | nil =>
    simp only [containsSub, headMatch_iff]
    constructor
    · rintro ⟨t, ht⟩
      rcases List.append_eq_nil.mp ht.symm with ⟨hw, hts⟩
      exact ⟨[], [], by simp [hw, hts]⟩
    · rintro ⟨a, b, hab⟩
      rcases List.append_eq_nil.mp (List.append_eq_nil.mp hab.symm).1 with ⟨ha, hw⟩
      exact ⟨b, by simp_all⟩
  | cons c rest ih =>
    simp only [containsSub, Bool.or_eq_true, headMatch_iff, ih]
    constructor
    · rintro (⟨t, ht⟩ | ⟨a, b, hab⟩)
      · exact ⟨[], t, by simp [ht]⟩
      · exact ⟨c :: a, b, by simp [hab]⟩
    · rintro ⟨a, b, hab⟩
      cases a with
      | nil => exact Or.inl ⟨b, by simpa using hab⟩
      | cons x xs =>
        refine Or.inr ⟨xs, b, ?_⟩
        simpa using congrArg List.tail hab

/-! ## Claims about vendor extraction -/

/-- C1: `extract_vendor_name` tries the three pattern rules in fixed
priority order with case-insensitive matching, returns the first
matching pattern's captured span stripped of surrounding whitespace, and
returns `None` when no pattern matches. -/
theorem extract_vendor_name_priority (text : String) :
    (∀ c, reSearch p1 text.data = some c →
        extract_vendor_name text = some (String.mk (pyStrip c)))
  ∧ (reSearch p1 text.data = none → ∀ c, reSearch p2 text.data = some c →
        extract_vendor_name text = some (String.mk (pyStrip c)))
  ∧ (reSearch p1 text.data = none → reSearch p2 text.data = none →
        ∀ c, reSearch p3 text.data = some c →
        extract_vendor_name text = some (String.mk (pyStrip c)))
  ∧ (reSearch p1 text.data = none → reSearch p2 text.data = none →
        reSearch p3 text.data = none → extract_vendor_name text = none) := by
  refine ⟨?_, ?_, ?_, ?_⟩ <;> intros <;>
    simp_all [extract_vendor_name, patterns, extractVendorAux]

/-- Witness for C1 at a concrete input matched by the first pattern. -/
theorem extract_vendor_name_priority_witness :
    extract_vendor_name "vendor: Acme" = some "Acme" :=
  (extract_vendor_name_priority "vendor: Acme").1 "Acme".data (by decide)

/-- C2 counterexample: on "Ordered from Acme Co. yesterday" the function
does not return "Acme Co.". -/
theorem extract_vendor_name_acme_counterexample :
    extract_vendor_name "Ordered from Acme Co. yesterday" ≠ some "Acme Co." := by
  decide

/-- C2 (amended): on "Ordered from Acme Co. yesterday" the second
pattern matches first and its greedy capture runs to the end of the
text, so the result is "Acme Co. yesterday". -/
theorem extract_vendor_name_acme_greedy :
    extract_vendor_name "Ordered from Acme Co. yesterday" = some "Acme Co. yesterday" := by
  decide

/-! ## Claims about sentiment -/

/-- C7: `extract_sentiment` always returns a value in [-1, 1]; it
returns 0 on empty input and whenever the underlying model raises. -/
theorem extract_sentiment_bounds (m : SentimentModel) (text : String) :
    (-1 ≤ extract_sentiment m text ∧ extract_sentiment m text ≤ 1)
  ∧ extract_sentiment m "" = 0
  ∧ (∀ e, m.polarity text = Except.error e → extract_sentiment m text = 0) := by
  refine ⟨?_, ?_, ?_⟩
  · cases h : m.polarity text with
    | ok q => simpa [extract_sentiment, h] using m.polarity_mem text q h
    | error e =>
      simp only [extract_sentiment, h]
      exact ⟨by norm_num, by norm_num⟩
  · simp [extract_sentiment, m.polarity_empty]
  · intro e he; simp [extract_sentiment, he]

/-- Witness for C7 on a model that raises on the input "x". -/
theorem extract_sentiment_bounds_witness :
    (-1 ≤ extract_sentiment errModel "x" ∧ extract_sentiment errModel "x" ≤ 1)
  ∧ extract_sentiment errModel "" = 0
  ∧ extract_sentiment errModel "x" = 0 :=
  ⟨(extract_sentiment_bounds errModel "x").1,
   (extract_sentiment_bounds errModel "x").2.1,
   (extract_sentiment_bounds errModel "x").2.2 "boom" rfl⟩

/-! ## Claims about the normalizer -/

/-- C9: a raw post with an absent/deleted author normalizes to the fixed
sentinel author string "None", never to an absent value. -/
theorem author_sentinel (m : SentimentModel) (raw : RawPost)
    (h : raw.author = none) :
    (process_post m (.good raw)).map StoredPost.author = some "None" := by
  simp [process_post, h, pyStr]

/-- Witness for C9 at a concrete author-less raw post. -/
theorem author_sentinel_witness :
    rawNoAuthor.author = none ∧
    (process_post neutralModel (.good rawNoAuthor)).map StoredPost.author = some "None" :=
  ⟨rfl, author_sentinel neutralModel rawNoAuthor rfl⟩

theorem reviewCond_iff (lt : List Char) :
    (["review", "experience"].any (fun word => containsSub word.data lt) = true) ↔
    ((∃ a b, lt = a ++ "review".data ++ b) ∨
     (∃ a b, lt = a ++ "experience".data ++ b)) := by
  simp [List.any_cons, List.any_nil, Bool.or_eq_true, containsSub_iff]

theorem post_type_eq (m : SentimentModel) (raw : RawPost) :
    (process_post m (.good raw)).map StoredPost.post_type
      = some (if ["review", "experience"].any
            (fun word => containsSub word.data (raw.title.data.map Char.toLower))
          then "review" else "discussion") := rfl

/-- C6: the normalizer sets `post_type` to "review" exactly when the
lowercased title contains "review" or "experience" as a substring, and
to "discussion" otherwise; in particular "Great review of XYZ" yields
"review" and "Just a discussion thread" yields "discussion". -/
theorem post_type_classification (m : SentimentModel) (raw : RawPost) :
    (((process_post m (.good raw)).map StoredPost.post_type = some "review") ↔
      ((∃ a b, raw.title.data.map Char.toLower = a ++ "review".data ++ b) ∨
       (∃ a b, raw.title.data.map Char.toLower = a ++ "experience".data ++ b)))
  ∧ (((process_post m (.good raw)).map StoredPost.post_type = some "discussion") ↔
      ¬ ((∃ a b, raw.title.data.map Char.toLower = a ++ "review".data ++ b) ∨
         (∃ a b, raw.title.data.map Char.toLower = a ++ "experience".data ++ b)))
  ∧ (process_post m (.good (mkRaw "g1" "Great review of XYZ"))).map StoredPost.post_type
      = some "review"
  ∧ (process_post m (.good (mkRaw "g2" "Just a discussion thread"))).map StoredPost.post_type
      = some "discussion" := by
  have hiff := reviewCond_iff (raw.title.data.map Char.toLower)
  refine ⟨?_, ?_, rfl, rfl⟩
  · rw [post_type_eq, ← hiff]
    by_cases hc : (["review", "experience"].any
        (fun word => containsSub word.data (raw.title.data.map Char.toLower))) = true
    · simp [hc]
    · simp [hc]
  · rw [post_type_eq, ← hiff]
    by_cases hc : (["review", "experience"].any
        (fun word => containsSub word.data (raw.title.data.map Char.toLower))) = true
    · simp [hc]
    · simp [hc]

/-! ## Claims about the startup check -/

theorem joinComma_mem_split (v : String) : ∀ l : List String, v ∈ l →
    ∃ a b, (joinComma l).data = a ++ v.data ++ b := by
  intro l
  induction l with
  | nil => simp
  | cons s rest ih =>
    intro hv
    cases rest with
    | nil =>
      rcases List.mem_singleton.mp hv with rfl
      exact ⟨[], [], by simp [joinComma]⟩
    | cons t rest2 =>
      rcases List.mem_cons.mp hv with rfl | hv2
      · refine ⟨[], (", " ++ joinComma (t :: rest2)).data, ?_⟩
        simp [joinComma, String.data_append]
      · rcases ih hv2 with ⟨a, b, hab⟩
        refine ⟨(s ++ ", ").data ++ a, b, ?_⟩
        simp [joinComma, String.data_append, hab]

/-- C8: when one or more required configuration variables are missing,
the startup check fails with one error whose message names every missing
variable (not only the first); when all are present it succeeds. -/
theorem check_environment_reports_all (env : String → Option String) :
    (missingOf env = [] → check_environment env = Except.ok ())
  ∧ (missingOf env ≠ [] →
      check_environment env = Except.error (missingMsg (missingOf env)))
  ∧ (∀ v ∈ missingOf env,
      containsSub v.data (missingMsg (missingOf env)).data = true) := by
  refine ⟨?_, ?_, ?_⟩
  · intro h
    simp [check_environment, h]
  · intro h
    simp [check_environment, List.isEmpty_iff, h]
  · intro v hv
    rcases joinComma_mem_split v (missingOf env) hv with ⟨a, b, hab⟩
    refine (containsSub_iff v.data (missingMsg (missingOf env)).data).mpr ?_
    refine ⟨"Missing required environment variables: ".data ++ a, b, ?_⟩
    simp [missingMsg, String.data_append, hab]

/-- Witness for C8: with no variables set the check reports all four
names in one error; with all set it succeeds. -/
theorem check_environment_reports_all_witness :
    check_environment envFull = Except.ok ()
  ∧ check_environment env0 = Except.error (missingMsg (missingOf env0))
  ∧ containsSub "SUPABASE_URL".data (missingMsg (missingOf env0)).data = true
  ∧ containsSub "REDDIT_CLIENT_SECRET".data (missingMsg (missingOf env0)).data = true :=
  ⟨(check_environment_reports_all envFull).1 (by decide),
   (check_environment_reports_all env0).2.1 (by decide),
   (check_environment_reports_all env0).2.2 "SUPABASE_URL" (by decide),
   (check_environment_reports_all env0).2.2 "REDDIT_CLIENT_SECRET" (by decide)⟩

/-! ## Lemmas about the ingestion loop -/

theorem process_post_none_of_bad (m : SentimentModel) (item : FetchItem)
    (h : isBad item = true) : process_post m item = none := by
  cases item with
  | good p => simp [isBad] at h
  | bad i => rfl

theorem process_post_id (m : SentimentModel) (item : FetchItem) (d : StoredPost)
    (h : process_post m item = some d) : d.reddit_id = itemId item := by
  cases item with
  | good p =>
    rw [← Option.some.inj h]
    rfl
  | bad i => simp [process_post] at h

theorem stepPost_cases (m : SentimentModel) (flt : Faults) (st : Store) (item : FetchItem) :
    stepPost m flt st item = st ∨
    ((st.filter (fun r => r.reddit_id == itemId item)).isEmpty = true ∧
     ∃ d, process_post m item = some d ∧ stepPost m flt st item = st ++ [d]) := by
  by_cases hcf : flt.checkFault (itemId item) = true
  · left; unfold stepPost; rw [if_pos hcf]
  by_cases hfe : (st.filter (fun r => r.reddit_id == itemId item)).isEmpty = true
  · cases hpp : process_post m item with
    | none =>
      left; unfold stepPost
      rw [if_neg hcf, if_pos hfe, hpp]
    | some d =>
      by_cases hif : flt.insertFault (itemId item) = true
      · left; unfold stepPost
        rw [if_neg hcf, if_pos hfe, hpp]
        show (if flt.insertFault (itemId item) = true then st else st ++ [d]) = st
        rw [if_pos hif]
      · right
        refine ⟨hfe, d, rfl, ?_⟩
        unfold stepPost
        rw [if_neg hcf, if_pos hfe, hpp]
        show (if flt.insertFault (itemId item) = true then st else st ++ [d]) = st ++ [d]
        rw [if_neg hif]
  · left; unfold stepPost; rw [if_neg hcf, if_neg hfe]

theorem stepPost_mono (m : SentimentModel) (flt : Faults) (st : Store)
    (item : FetchItem) {r : StoredPost} (hr : r ∈ st) :
    r ∈ stepPost m flt st item := by
  rcases stepPost_cases m flt st item with h | ⟨_, d, _, h⟩ <;> rw [h]
  · exact hr
  · exact List.mem_append_left _ hr

theorem scrape_mono (m : SentimentModel) (flt : Faults) :
    ∀ (posts : List FetchItem) (st : Store) (r : StoredPost), r ∈ st →
      r ∈ scrape_subreddit_data m flt st posts := by
  intro posts
  induction posts with
  | nil => intro st r hr; exact hr
  | cons p ps ih =>
    intro st r hr
    exact ih (stepPost m flt st p) r (stepPost_mono m flt st p hr)

theorem scrape_mem_id_mono (m : SentimentModel) (flt : Faults)
    (posts : List FetchItem) (st : Store) (i : String)
    (hi : i ∈ st.map StoredPost.reddit_id) :
    i ∈ (scrape_subreddit_data m flt st posts).map StoredPost.reddit_id := by
  rcases List.mem_map.mp hi with ⟨r, hr, rfl⟩
  exact List.mem_map.mpr ⟨r, scrape_mono m flt posts st r hr, rfl⟩

theorem stepPost_stable (m : SentimentModel) (flt : Faults) (st : Store) (item : FetchItem)
    (h : itemFails flt item ∨ itemId item ∈ st.map StoredPost.reddit_id) :
    stepPost m flt st item = st := by
  unfold stepPost
  by_cases hcf : flt.checkFault (itemId item) = true
  · rw [if_pos hcf]
  rw [if_neg hcf]
  by_cases hmem : itemId item ∈ st.map StoredPost.reddit_id
  · have hne : (st.filter (fun r => r.reddit_id == itemId item)).isEmpty = false := by
      rcases List.mem_map.mp hmem with ⟨r, hr, hid⟩
      have hmf : r ∈ st.filter (fun r => r.reddit_id == itemId item) :=
        List.mem_filter.mpr ⟨hr, by simp [hid]⟩
      rcases hfe : (st.filter (fun r => r.reddit_id == itemId item)).isEmpty with _ | _
      · exact hfe
      · rw [List.isEmpty_iff] at hfe
        rw [hfe] at hmf
        cases hmf
    simp only [hne, Bool.false_eq_true, if_false]
  · rcases h with (hcf2 | hbad | hif) | hmem2
    · exact absurd hcf2 hcf
    · have hpp := process_post_none_of_bad m item hbad
      split
      · simp only [hpp]
      · rfl
    · split
      · cases hpp : process_post m item with
        | some d => simp only [hpp, hif, if_true]
        | none => simp only [hpp]
      · rfl
    · exact absurd hmem2 hmem

theorem stepPost_mem_id (m : SentimentModel) (flt : Faults) (st : Store) (item : FetchItem)
    (hok : itemOk flt item) :
    itemId item ∈ (stepPost m flt st item).map StoredPost.reddit_id := by
  by_cases hmem : itemId item ∈ st.map StoredPost.reddit_id
  · rw [stepPost_stable m flt st item (Or.inr hmem)]; exact hmem
  · rcases hok with ⟨hcf, hbad, hif⟩
    cases item with
    | bad i => simp [isBad] at hbad
    | good p =>
      unfold stepPost
      rw [if_neg (by simp [hcf])]
      have hfe : (st.filter (fun r => r.reddit_id == itemId (.good p))).isEmpty = true := by
        rw [List.isEmpty_iff, List.filter_eq_nil_iff]
        intro r hr
        simp only [beq_iff_eq]
        intro hid
        exact hmem (List.mem_map.mpr ⟨r, hr, hid⟩)
      rw [if_pos hfe]
      rcases hpp : process_post m (FetchItem.good p) with _ | d
      · simp [process_post] at hpp
      · simp only [hpp]
        rw [if_neg (by simp [hif])]
        have hid := process_post_id m (.good p) d hpp
        simp [hid]

theorem scrape_mem_id (m : SentimentModel) (flt : Faults) :
    ∀ (posts : List FetchItem) (st : Store) (item : FetchItem), item ∈ posts →
      itemOk flt item →
      itemId item ∈ (scrape_subreddit_data m flt st posts).map StoredPost.reddit_id := by
  intro posts
  induction posts with
  | nil => intro st item hmem _; cases hmem
  | cons p ps ih =>
    intro st item hmem hok
    rcases List.mem_cons.mp hmem with rfl | h2
    · exact scrape_mem_id_mono m flt ps _ _ (stepPost_mem_id m flt st item hok)
    · exact ih (stepPost m flt st p) item h2 hok

theorem stepPost_nodup (m : SentimentModel) (flt : Faults) (st : Store) (item : FetchItem)
    (h : (st.map StoredPost.reddit_id).Nodup) :
    ((stepPost m flt st item).map StoredPost.reddit_id).Nodup := by
  rcases stepPost_cases m flt st item with heq | ⟨hfe, d, hpp, heq⟩ <;> rw [heq]
  · exact h
  · have hnot : d.reddit_id ∉ st.map StoredPost.reddit_id := by
      intro hmem
      rcases List.mem_map.mp hmem with ⟨r, hr, hid⟩
      rw [List.isEmpty_iff] at hfe
      have : r ∈ st.filter (fun r => r.reddit_id == itemId item) :=
        List.mem_filter.mpr ⟨hr, by simp [hid, process_post_id m item d hpp]⟩
      rw [hfe] at this
      cases this
    simp [List.nodup_append, hnot, h]

theorem scrape_nodup (m : SentimentModel) (flt : Faults) :
    ∀ (posts : List FetchItem) (st : Store), (st.map StoredPost.reddit_id).Nodup →
      ((scrape_subreddit_data m flt st posts).map StoredPost.reddit_id).Nodup := by
  intro posts
  induction posts with
  | nil => intro st h; exact h
  | cons p ps ih =>
    intro st h
    exact ih (stepPost m flt st p) (stepPost_nodup m flt st p h)

theorem scrape_stable (m : SentimentModel) (flt : Faults) :
    ∀ (posts : List FetchItem) (st : Store),
      (∀ item ∈ posts, stepPost m flt st item = st) →
      scrape_subreddit_data m flt st posts = st := by
  intro posts
  induction posts with
  | nil => intro st _; rfl
  | cons p ps ih =>
    intro st h
    have hp := h p (List.mem_cons_self p ps)
    have hstep : scrape_subreddit_data m flt st (p :: ps)
        = scrape_subreddit_data m flt (stepPost m flt st p) ps := rfl
    rw [hstep, hp]
    exact ih st (fun item hit => h item (List.mem_cons_of_mem p hit))

/-- C3: re-running the per-forum scrape with identical fetched results is
idempotent, and the store keeps exactly one record per reddit id. -/
theorem scrape_idempotent (m : SentimentModel) (flt : Faults) (st : Store)
    (posts : List FetchItem) (h : (st.map StoredPost.reddit_id).Nodup) :
    scrape_subreddit_data m flt (scrape_subreddit_data m flt st posts) posts
      = scrape_subreddit_data m flt st posts
  ∧ ((scrape_subreddit_data m flt st posts).map StoredPost.reddit_id).Nodup := by
  constructor
  · apply scrape_stable
    intro item hit
    by_cases hcf : flt.checkFault (itemId item) = true
    · exact stepPost_stable _ _ _ _ (Or.inl (Or.inl hcf))
    by_cases hbad : isBad item = true
    · exact stepPost_stable _ _ _ _ (Or.inl (Or.inr (Or.inl hbad)))
    by_cases hif : flt.insertFault (itemId item) = true
    · exact stepPost_stable _ _ _ _ (Or.inl (Or.inr (Or.inr hif)))
    · have hok : itemOk flt item := ⟨by simpa using hcf, by simpa using hbad, by simpa using hif⟩
      exact stepPost_stable _ _ _ _ (Or.inr (scrape_mem_id m flt posts st item hit hok))
  · exact scrape_nodup m flt posts st h

/-- Witness for C3 on a one-post batch over an empty store. -/
theorem scrape_idempotent_witness :
    ((([] : Store).map StoredPost.reddit_id).Nodup)
  ∧ (scrape_subreddit_data neutralModel noFaults
        (scrape_subreddit_data neutralModel noFaults [] [FetchItem.good (mkRaw "a1" "hi")])
        [FetchItem.good (mkRaw "a1" "hi")]
      = scrape_subreddit_data neutralModel noFaults [] [FetchItem.good (mkRaw "a1" "hi")]
    ∧ ((scrape_subreddit_data neutralModel noFaults []
          [FetchItem.good (mkRaw "a1" "hi")]).map StoredPost.reddit_id).Nodup) :=
  ⟨by simp, scrape_idempotent neutralModel noFaults [] [FetchItem.good (mkRaw "a1" "hi")] (by simp)⟩

/-- C5: a per-post failure (existence check, normalization, or insert)
only skips that post; the rest of the batch is still processed, and every
well-formed fault-free post ends up present in the store. -/
theorem scrape_per_post_isolation (m : SentimentModel) (flt : Faults) (st : Store)
    (xs : List FetchItem) (y : FetchItem) (ys : List FetchItem)
    (hy : itemFails flt y) :
    scrape_subreddit_data m flt st (xs ++ y :: ys) = scrape_subreddit_data m flt st (xs ++ ys)
  ∧ ∀ x ∈ xs ++ ys, itemOk flt x →
      itemId x ∈ (scrape_subreddit_data m flt st (xs ++ ys)).map StoredPost.reddit_id := by
  constructor
  · unfold scrape_subreddit_data
    rw [List.foldl_append, List.foldl_append, List.foldl_cons,
        stepPost_stable m flt _ y (Or.inl hy)]
  · intro x hx hok
    exact scrape_mem_id m flt (xs ++ ys) st x hx hok

/-- Witness for C5: a malformed post in the middle of a batch of three is
skipped while its neighbours are inserted. -/
theorem scrape_per_post_isolation_witness :
    scrape_subreddit_data neutralModel noFaults []
        ([FetchItem.good (mkRaw "a1" "hello")] ++ FetchItem.bad "b1" :: [FetchItem.good (mkRaw "c1" "yo")])
      = scrape_subreddit_data neutralModel noFaults []
        ([FetchItem.good (mkRaw "a1" "hello")] ++ [FetchItem.good (mkRaw "c1" "yo")])
  ∧ "a1" ∈ (scrape_subreddit_data neutralModel noFaults []
        ([FetchItem.good (mkRaw "a1" "hello")] ++ [FetchItem.good (mkRaw "c1" "yo")])).map
        StoredPost.reddit_id :=
  ⟨(scrape_per_post_isolation neutralModel noFaults [] [FetchItem.good (mkRaw "a1" "hello")]
      (FetchItem.bad "b1") [FetchItem.good (mkRaw "c1" "yo")] (by decide)).1,
   (scrape_per_post_isolation neutralModel noFaults [] [FetchItem.good (mkRaw "a1" "hello")]
      (FetchItem.bad "b1") [FetchItem.good (mkRaw "c1" "yo")] (by decide)).2
      (FetchItem.good (mkRaw "a1" "hello")) (by simp) (by decide)⟩

/-! ## Lemmas about the refresh pass -/

theorem frameEq_refl (a : StoredPost) : frameEq a a :=
  ⟨rfl, rfl, rfl, rfl, rfl, rfl, rfl, rfl, rfl, rfl, rfl⟩

theorem frameEq_trans {a b c : StoredPost} (h1 : frameEq a b) (h2 : frameEq b c) :
    frameEq a c := by
  obtain ⟨e1, e2, e3, e4, e5, e6, e7, e8, e9, e10, e11⟩ := h1
  obtain ⟨f1, f2, f3, f4, f5, f6, f7, f8, f9, f10, f11⟩ := h2
  exact ⟨e1.trans f1, e2.trans f2, e3.trans f3, e4.trans f4, e5.trans f5, e6.trans f6,
    e7.trans f7, e8.trans f8, e9.trans f9, e10.trans f10, e11.trans f11⟩

theorem forall2_frameEq_refl : ∀ l : Store, List.Forall₂ frameEq l l := by
  intro l
  induction l with
  | nil => exact List.Forall₂.nil
  | cons a l ih => exact List.Forall₂.cons (frameEq_refl a) ih

theorem forall2_frameEq_trans {a b : Store} (h1 : List.Forall₂ frameEq a b) :
    ∀ {c : Store}, List.Forall₂ frameEq b c → List.Forall₂ frameEq a c := by
  induction h1 with
  | nil => intro c h2; exact h2
  | cons hab h ih =>
    intro c h2
    cases h2 with
    | cons hbc h2r => exact List.Forall₂.cons (frameEq_trans hab hbc) (ih h2r)

theorem applyUpdate_frame (st : Store) (id : String) (v : LiveData) :
    List.Forall₂ frameEq st (applyUpdate st id v) := by
  induction st with
  | nil => exact List.Forall₂.nil
  | cons r rest ih =>
    refine List.Forall₂.cons ?_ ih
    by_cases h : (r.reddit_id == id) = true
    · simp only [h, if_true]
      exact ⟨rfl, rfl, rfl, rfl, rfl, rfl, rfl, rfl, rfl, rfl, rfl⟩
    · simp only [h, if_false]
      exact frameEq_refl r

theorem update_fold_frame (live : String → Option LiveData) :
    ∀ (L : List String) (st acc : Store), List.Forall₂ frameEq st acc →
      List.Forall₂ frameEq st (L.foldl (refreshStep live) acc) := by
  intro L
  induction L with
  | nil => intro st acc h; exact h
  | cons id L ih =>
    intro st acc h
    rw [List.foldl_cons]
    cases hl : live id with
    | none =>
      rw [show refreshStep live acc id = acc from by simp [refreshStep, hl]]
      exact ih st acc h
    | some v =>
      rw [show refreshStep live acc id = applyUpdate acc id v from by simp [refreshStep, hl]]
      exact ih st (applyUpdate acc id v) (forall2_frameEq_trans h (applyUpdate_frame acc id v))

theorem fold_synced (live : String → Option LiveData) :
    ∀ (L : List String) (acc : Store),
      (∀ r ∈ acc, r.reddit_id ∈ L ∨ syncedR live r) →
      ∀ r ∈ L.foldl (refreshStep live) acc, syncedR live r := by
  intro L
  induction L with
  | nil =>
    intro acc h r hr
    rcases h r hr with h1 | h2
    · cases h1
    · exact h2
  | cons id L ih =>
    intro acc h
    rw [List.foldl_cons]
    apply ih
    intro r2 hr2
    cases hl : live id with
    | none =>
      rw [show refreshStep live acc id = acc from by simp [refreshStep, hl]] at hr2
      rcases h r2 hr2 with h1 | h2
      · rcases List.mem_cons.mp h1 with heq | hmem
        · refine Or.inr ?_
          intro v hv
          rw [heq, hl] at hv
          cases hv
        · exact Or.inl hmem
      · exact Or.inr h2
    | some v =>
      rw [show refreshStep live acc id = applyUpdate acc id v from by simp [refreshStep, hl]] at hr2
      rcases List.mem_map.mp hr2 with ⟨r, hr, rfl⟩
      by_cases hid : (r.reddit_id == id) = true
      · refine Or.inr ?_
        rw [if_pos hid]
        intro v2 hv2
        have hid2 : r.reddit_id = id := by simpa using hid
        have hv2b : live id = some v2 := by rw [← hid2]; exact hv2
        rw [hl] at hv2b
        obtain rfl : v = v2 := Option.some.inj hv2b
        exact ⟨rfl, rfl, rfl⟩
      · rw [if_neg hid]
        rcases h r hr with h1 | h2
        · rcases List.mem_cons.mp h1 with heq | hmem
          · exact absurd (by simp [heq]) hid
          · exact Or.inl hmem
        · exact Or.inr h2

theorem update_synced (live : String → Option LiveData) (st : Store) :
    ∀ r ∈ update_existing_posts live st, syncedR live r := by
  apply fold_synced
  intro r hr
  exact Or.inl (List.mem_map_of_mem StoredPost.reddit_id hr)

theorem map_fixed {α : Type} (f : α → α) : ∀ l : List α, (∀ a ∈ l, f a = a) → l.map f = l := by
  intro l
  induction l with
  | nil => intro _; rfl
  | cons a l ih =>
    intro h
    rw [List.map_cons, h a (List.mem_cons_self a l),
        ih (fun b hb => h b (List.mem_cons_of_mem a hb))]

theorem applyUpdate_id_of_synced (live : String → Option LiveData) (acc : Store)
    (id : String) (v : LiveData) (hv : live id = some v)
    (h : ∀ r ∈ acc, syncedR live r) : applyUpdate acc id v = acc := by
  unfold applyUpdate
  apply map_fixed
  intro r hr
  by_cases hid : (r.reddit_id == id) = true
  · rw [if_pos hid]
    have hid2 : r.reddit_id = id := by simpa using hid
    obtain ⟨h1, h2, h3⟩ := h r hr v (by rw [hid2]; exact hv)
    rw [← h1, ← h2, ← h3]
  · rw [if_neg hid]

theorem fold_id_of_synced (live : String → Option LiveData) :
    ∀ (L : List String) (acc : Store), (∀ r ∈ acc, syncedR live r) →
      L.foldl (refreshStep live) acc = acc := by
  intro L
  induction L with
  | nil => intro acc _; rfl
  | cons id L ih =>
    intro acc h
    rw [List.foldl_cons]
    cases hl : live id with
    | none =>
      rw [show refreshStep live acc id = acc from by simp [refreshStep, hl]]
      exact ih acc h
    | some v =>
      rw [show refreshStep live acc id = acc from by
        simp only [refreshStep, hl]
        exact applyUpdate_id_of_synced live acc id v hl h]
      exact ih acc h

/-- C4: the refresh pass only mutates `score`, `num_comments` and
`upvote_ratio`; every other field of every record is unchanged, and with
unchanged upstream values a second pass is the identity. -/
theorem refresh_frame_idempotent (live : String → Option LiveData) (st : Store) :
    List.Forall₂ frameEq st (update_existing_posts live st)
  ∧ update_existing_posts live (update_existing_posts live st)
      = update_existing_posts live st := by
  constructor
  · exact update_fold_frame live (st.map StoredPost.reddit_id) st st (forall2_frameEq_refl st)
  · show ((update_existing_posts live st).map StoredPost.reddit_id).foldl (refreshStep live)
        (update_existing_posts live st) = update_existing_posts live st
    exact fold_id_of_synced live _ _ (update_synced live st)

/-! ## Lemmas about the regex search, and the unreachable third pattern -/

theorem plusMatch_some {cls : Char → Bool} {k : List Char → Option (List Char)} :
    ∀ {s c : List Char}, plusMatch cls k s = some c → ∃ n, k (s.drop n) = some c := by
  intro s
  induction s with
  | nil => intro c h; simp [plusMatch] at h
  | cons a rest ih =>
    intro c h
    unfold plusMatch at h
    by_cases ha : cls a = true
    · rw [if_pos ha] at h
      cases hp : plusMatch cls k rest with
      | some r =>
        rw [hp] at h
        have hrc : r = c := Option.some.inj h
        rcases ih hp with ⟨n, hn⟩
        rw [hrc] at hn
        exact ⟨n + 1, hn⟩
      | none =>
        rw [hp] at h
        exact ⟨1, h⟩
    · rw [if_neg ha] at h
      cases h

theorem reSearch_none {es : List RElem} :
    ∀ {s : List Char}, reSearch es s = none → ∀ n, matchElems es (s.drop n) = none := by
  intro s
  induction s with
  | nil =>
    intro h n
    rw [List.drop_nil]
    simpa [reSearch] using h
  | cons a rest ih =>
    intro h n
    unfold reSearch at h
    cases hm : matchElems es (a :: rest) with
    | some r => rw [hm] at h; cases h
    | none =>
      rw [hm] at h
      cases n with
      | zero => exact hm
      | succ n2 => exact ih h n2

theorem reSearch_some {es : List RElem} :
    ∀ {s c : List Char}, reSearch es s = some c → ∃ n, matchElems es (s.drop n) = some c := by
  intro s
  induction s with
  | nil =>
    intro c h
    rw [reSearch] at h
    exact ⟨0, h⟩
  | cons a rest ih =>
    intro c h
    unfold reSearch at h
    cases hm : matchElems es (a :: rest) with
    | some r =>
      rw [hm] at h
      rw [← h]
      exact ⟨0, hm⟩
    | none =>
      rw [hm] at h
      rcases ih h with ⟨n, hn⟩
      exact ⟨n + 1, hn⟩

theorem matchP3_implies_P2 {s c : List Char} (h : matchElems p3 s = some c) :
    ∃ n, matchElems p2 (s.drop n) = some c := by
  unfold p3 at h
  rw [show matchElems [RElem.lit "ordered".data, RElem.plus pySpace,
        RElem.lit "from".data, RElem.plus pySpace] s
      = if ciStarts "ordered".data s = true then
          plusMatch pySpace (matchElems [RElem.lit "from".data, RElem.plus pySpace])
            (s.drop "ordered".data.length)
        else none from rfl] at h
  by_cases ho : ciStarts "ordered".data s = true
  · rw [if_pos ho] at h
    rcases plusMatch_some h with ⟨n, hn⟩
    rw [List.drop_drop] at hn
    exact ⟨"ordered".data.length + n, hn⟩
  · rw [if_neg ho] at h
    cases h

theorem searchP3_implies_searchP2 (t : List Char) (c : List Char)
    (h : reSearch p3 t = some c) : ∃ c2, reSearch p2 t = some c2 := by
  rcases reSearch_some h with ⟨n, hn⟩
  rcases matchP3_implies_P2 hn with ⟨n2, hn2⟩
  rw [List.drop_drop] at hn2
  cases hr : reSearch p2 t with
  | some c2 => exact ⟨c2, rfl⟩
  | none =>
    rw [reSearch_none hr (n + n2)] at hn2
    cases hn2

/-- C10: the third pattern of `extract_vendor_name` is unreachable:
whenever the "ordered from" pattern matches, the earlier "from" pattern
also matches, so the function is extensionally equal to its two-pattern
variant. -/
theorem third_pattern_unreachable (text : String) :
    extract_vendor_name text = extract_vendor_name_two text
  ∧ (∀ c, reSearch p3 text.data = some c → ∃ c2, reSearch p2 text.data = some c2) := by
  constructor
  · cases h1 : reSearch p1 text.data with
    | some g =>
      simp [extract_vendor_name, extract_vendor_name_two, patterns, extractVendorAux, h1]
    | none =>
      cases h2 : reSearch p2 text.data with
      | some g =>
        simp [extract_vendor_name, extract_vendor_name_two, patterns, extractVendorAux, h1, h2]
      | none =>
        have h3 : reSearch p3 text.data = none := by
          cases h3 : reSearch p3 text.data with
          | none => rfl
          | some c =>
            rcases searchP3_implies_searchP2 text.data c h3 with ⟨c2, hc2⟩
            rw [hc2] at h2
            cases h2
        simp [extract_vendor_name, extract_vendor_name_two, patterns, extractVendorAux,
          h1, h2, h3]
  · intro c h
    exact searchP3_implies_searchP2 text.data c h

/-- Witness for C10 at an input on which the third pattern matches. -/
theorem third_pattern_unreachable_witness :
    extract_vendor_name "ordered from Zed" = extract_vendor_name_two "ordered from Zed"
  ∧ ∃ c2, reSearch p2 "ordered from Zed".data = some c2 :=
  ⟨(third_pattern_unreachable "ordered from Zed").1,
   (third_pattern_unreachable "ordered from Zed").2 "Zed".data (by decide)⟩

/-- Evaluation cross-checks of the regex embedding: each equation below
reproduces the observed behaviour of the original Python
`extract_vendor_name` (CPython `re`) on the same input, including the
greedy-backtracking corner cases where a quantifier gives back
whitespace to the capturing group. -/
theorem extract_vendor_name_eval_checks :
    extract_vendor_name "vendor: Acme" = some "Acme"
  ∧ extract_vendor_name "no marker here at all!" = none
  ∧ extract_vendor_name "I ordered from BudCo, arrived" = some "BudCo"
  ∧ extract_vendor_name "vendor: , something" = some ""
  ∧ extract_vendor_name "vendor:,abc" = none
  ∧ extract_vendor_name "from  " = some ""
  ∧ extract_vendor_name "from " = none
  ∧ extract_vendor_name "fromage is nice" = none
  ∧ extract_vendor_name "VENDOR\tBig-Guy_1.2!" = some "Big-Guy_1.2"
  ∧ extract_vendor_name "x vendor:! from! ordered from Z" = some "Z"
  ∧ extract_vendor_name "ordered  FROM  Zed99" = some "Zed99"
  ∧ extract_vendor_name "vendor:" = none := by
  refine ⟨?_, ?_, ?_, ?_, ?_, ?_, ?_, ?_, ?_, ?_, ?_, ?_⟩ <;> decide

end Scraper
